import Mathlib

/-!
Shallow embedding of the fixture engine of `bocadillo/fixtures.py`
(classes `Fixture` and `Store`), together with theorems settling the
spec's claims about it.

Modelling conventions:
* A suspendable (async) computation is a state-transforming function
  `Comp := World → Value × World`, where `World` is an event trace that
  concrete provider bodies may append to; awaiting a computation runs it.
* A Python function is a `PyFunc`: its `__name__`, its
  `signature(func).parameters` (name and kind, in declaration order), the
  `iscoroutinefunction` flag, and a body taking the positional arguments,
  the keyword arguments and the current world.
* Calling a coroutine function produces the unawaited coroutine object
  without running it; that object is modelled as the `Comp` itself, and a
  first-class unawaited handle is the value `Value.handle c`.
* Python `dict`s (the store's `session_fixtures`, keyword arguments) are
  insertion-ordered association lists; `dictSet` mirrors `d[k] = v`
  (replace in place when the key exists, else append) and `dictGet`
  mirrors `d.get(k)`.
* Exceptions are `Except FixtureError`; `Store.fixture` returns the
  result together with the post-call store, because the source mutates
  `self.session_fixtures` before the recursion check can raise.
* `Store.freeze` mutates each fixture's `func` in place while iterating
  over the registry; the model threads the updated store through the
  iteration in the same order.
-/

namespace Bocadillo

/-- Event trace threaded through suspendable computations. -/
abbrev World := List String

/-- Python runtime values the fixture engine's claims need: strings,
integers, `None`, lists, tuples (as pairs), and unawaited coroutine
objects (`handle`). -/
inductive Value where
  | str : String → Value
  | int : Int → Value
  | vnone : Value
  | list : List Value → Value
  | pair : Value → Value → Value
  | handle : (World → Value × World) → Value

/-- A suspendable zero-argument computation: runs on the current world and
produces a value and the next world. -/
abbrev Comp := World → Value × World

/-- `inspect.Parameter.kind`, restricted to the kinds the engine
distinguishes: `KEYWORD_ONLY` versus everything bucketed positionally. -/
inductive ParamKind where
  | positional
  | keywordOnly
deriving DecidableEq, Repr

/-- One entry of `signature(func).parameters`: its name and kind. -/
structure Param where
  name : String
  kind : ParamKind
deriving DecidableEq, Repr

/-- A Python function as the fixture engine observes it: `__name__`, the
declared parameters in order, the `iscoroutinefunction` flag, and the
body, which receives the positional arguments, the keyword arguments and
the current world. -/
structure PyFunc where
  name : String
  params : List Param
  isCoroutine : Bool
  body : List Value → List (String × Value) → Comp

/-- The exception taxonomy of `bocadillo/fixtures.py`:
`FixtureDeclarationError` and its specialization `RecursiveFixtureError`,
which carries both fixture names (its message is built from them). -/
inductive FixtureError where
  | declarationError (message : String)
  | recursiveFixtureError (first second : String)
deriving DecidableEq, Repr

/-- Modelled from the spec: `wrap_async` from `bocadillo/compat.py`, which
is not under `src/`. Per the spec (sections 4.1 and 9), it normalizes a
synchronous callable into a suspendable one with identical call behavior,
preserving the wrapped function's metadata. In this embedding every body
is already a suspendable computation, so wrapping marks the function as a
coroutine function and preserves name, parameters and body. -/
def wrapAsync (f : PyFunc) : PyFunc :=
  { f with isCoroutine := true }

/-- The `if not iscoroutinefunction(func): func = wrap_async(func)`
normalization step, appearing in `Fixture.__init__` and
`Store.resolve_function`. -/
def pfNormalize (f : PyFunc) : PyFunc :=
  if !f.isCoroutine then wrapAsync f else f

/-- `SCOPE_SESSION` from the source. -/
def SCOPE_SESSION : String := "session"

/-- The `Fixture` class: the normalized provider function plus metadata. -/
structure Fixture where
  func : PyFunc
  name : String
  scope : String
  lazy : Bool

/-- `Fixture.__init__` (reached through the `Fixture.create` factory):
raises `FixtureDeclarationError` when `lazy` and the scope is not
`session`, otherwise normalizes the provider to a coroutine function and
stores the metadata. (`update_wrapper(self, self.func)` copies metadata
onto the object and is not observable in the claims.) -/
def Fixture.create (func : PyFunc) (name : String) (scope : String)
    (lazy : Bool) : Except FixtureError Fixture :=
  if lazy && (scope != SCOPE_SESSION) then
    .error (.declarationError "Lazy fixtures must be session-scoped")
  else
    .ok { func := pfNormalize func, name := name, scope := scope,
          lazy := lazy }

/-- `Fixture.__call__`: returns `self.func()`. Since `self.func` is a
coroutine function, this produces the unawaited computation; awaiting it
runs the body with no arguments. -/
def Fixture.call (f : Fixture) : Comp :=
  f.func.body [] []

/-- `d.get(k)` on an insertion-ordered dictionary. -/
def dictGet {α : Type} : List (String × α) → String → Option α
  | [], _ => none
  | (k', v) :: rest, k => if k' = k then some v else dictGet rest k

/-- `d[k] = v` on an insertion-ordered dictionary: replace in place when
the key exists, else append. -/
def dictSet {α : Type} : List (String × α) → String → α → List (String × α)
  | [], k, v => [(k, v)]
  | (k', v') :: rest, k, v =>
      if k' = k then (k, v) :: rest else (k', v') :: dictSet rest k v

/-- The `Store` class: owns the `session_fixtures` registry (the only
scope collection populated today; `_get_collection` returns it for every
scope). -/
structure Store where
  session_fixtures : List (String × Fixture)

/-- `Store.__init__`: the registry starts empty. -/
def Store.init : Store :=
  ⟨[]⟩

/-- The `Store.empty` property: true when no fixture is registered. -/
def Store.empty (s : Store) : Bool :=
  s.session_fixtures.isEmpty

/-- `Store._get`: look a fixture up by name. -/
def Store.get? (s : Store) (name : String) : Option Fixture :=
  dictGet s.session_fixtures name

/-- `Store._exists` (also `Store.__contains__`). -/
def Store.exists? (s : Store) (name : String) : Bool :=
  (s.get? name).isSome

/-- `Store._add`: register a fixture into the scope collection under its
name (replacing any previous fixture of that name; `_get_collection`
always yields `session_fixtures`). -/
def Store.add (s : Store) (fixt : Fixture) : Store :=
  ⟨dictSet s.session_fixtures fixt.name fixt⟩

/-- `Store._get_fixtures`: the parameters of `func` that resolve to a
registered fixture, with their fixtures, in declaration order (the
`None` entries of the comprehension are filtered out). -/
def Store.getFixtures (s : Store) (func : PyFunc) :
    List (String × Fixture) :=
  func.params.filterMap fun p => (s.get? p.name).map fun fx => (p.name, fx)

/-- `Store._check_for_recursive_fixtures`: for each parameter of `func`
that is a registered fixture, raise `RecursiveFixtureError` if `name`
appears among that fixture's own fixture parameters (first offender
raises). -/
def Store.checkForRecursiveFixtures (s : Store) (name : String)
    (func : PyFunc) : Except FixtureError Unit :=
  match (s.getFixtures func).find?
      (fun q => ((s.getFixtures q.2.func).map Prod.fst).contains name) with
  | some q => .error (.recursiveFixtureError name q.1)
  | none => .ok ()

/-- `Store.fixture` (with a provider supplied; the bare-decorator
`func is None` branch only curries the arguments and is not modelled):
derive the name, build the `Fixture` (which may raise), add it to the
registry, then run the recursion check (which may raise after the
registry was already mutated). The returned store is the registry after
the call, including the case where an exception was raised. -/
def Store.fixture (s : Store) (func : PyFunc) (scope : String)
    (nameArg : Option String) (lazy : Bool) :
    Except FixtureError Fixture × Store :=
  let name := nameArg.getD func.name
  match Fixture.create func name scope lazy with
  | .error e => (.error e, s)
  | .ok fixt =>
    let s₁ := s.add fixt
    match s₁.checkForRecursiveFixtures name func with
    | .error e => (.error e, s₁)
    | .ok _ => (.ok fixt, s₁)

/-- The `FixtureDeclarationError` raised by `Store._resolve_fixtures`
when a fixture parameter follows a non-fixture parameter. -/
def orderingError : FixtureError :=
  .declarationError
    ("Fixture parameters must be declared *before* other " ++
     "parameters, so that they can be deterministically passed " ++
     "to the consuming function.")

/-- Loop body of `Store._resolve_fixtures`: walk the parameters with the
`processing_fixtures` flag, bucketing fixture parameters into positional
and keyword-only fixtures, and raising `FixtureDeclarationError` when a
fixture parameter follows a non-fixture parameter. -/
def Store.resolveFixturesAux (s : Store) :
    List Param → Bool → List (String × Fixture) → List (String × Fixture) →
    Except FixtureError (List (String × Fixture) × List (String × Fixture))
  | [], _, argsF, kwargsF => .ok (argsF, kwargsF)
  | p :: rest, processing, argsF, kwargsF =>
    match s.get? p.name with
    | none => s.resolveFixturesAux rest false argsF kwargsF
    | some fixt =>
      if processing = false then
        .error orderingError
      else if p.kind = ParamKind.keywordOnly then
        s.resolveFixturesAux rest processing argsF
          (kwargsF ++ [(p.name, fixt)])
      else
        s.resolveFixturesAux rest processing (argsF ++ [(p.name, fixt)])
          kwargsF

/-- `Store._resolve_fixtures`: classify the parameters of `func`. -/
def Store.resolveFixtures (s : Store) (func : PyFunc) :
    Except FixtureError (List (String × Fixture) × List (String × Fixture)) :=
  s.resolveFixturesAux func.params true [] []

/-- One injected fixture argument inside the wrapper:
`fixt() if fixt.lazy else await fixt()` — the unawaited handle when lazy,
the awaited value otherwise. -/
def injectValue (fixt : Fixture) : Comp := fun w =>
  if fixt.lazy then (Value.handle fixt.call, w) else fixt.call w

/-- The `injected_args` comprehension: evaluate each positional fixture in
order, threading the world. -/
def injectArgs : List (String × Fixture) → World → List Value × World
  | [], w => ([], w)
  | (_, fixt) :: rest, w =>
    let p := injectValue fixt w
    let q := injectArgs rest p.2
    (p.1 :: q.1, q.2)

/-- The `injected_kwargs` comprehension: evaluate each keyword fixture in
order, threading the world. -/
def injectKwargs :
    List (String × Fixture) → World → List (String × Value) × World
  | [], w => ([], w)
  | (n, fixt) :: rest, w =>
    let p := injectValue fixt w
    let q := injectKwargs rest p.2
    ((n, p.1) :: q.1, q.2)

/-- The `with_fixtures` wrapper built by `Store.resolve_function`: on each
invocation evaluate the positional fixtures, then the keyword fixtures,
then call the original function with the injected positional values
first, the caller's positional arguments next, the injected keyword
values, and the caller's keyword arguments (`@wraps(func)` preserves the
metadata). -/
def with_fixtures (func : PyFunc)
    (argsFixtures kwargsFixtures : List (String × Fixture)) : PyFunc :=
  { name := func.name
    params := func.params
    isCoroutine := true
    body := fun args kwargs w =>
      let p := injectArgs argsFixtures w
      let q := injectKwargs kwargsFixtures p.2
      func.body (p.1 ++ args) (q.1 ++ kwargs) q.2 }

/-- `Store.resolve_function`: normalize `func` to a coroutine function,
classify its parameters (which may raise), return the normalized `func`
unchanged when no parameter matched a fixture, and otherwise build the
`with_fixtures` wrapper. -/
def Store.resolve_function (s : Store) (func : PyFunc) :
    Except FixtureError PyFunc :=
  let func := pfNormalize func
  match s.resolveFixtures func with
  | .error e => .error e
  | .ok r =>
    if r.1.isEmpty && r.2.isEmpty then .ok func
    else .ok (with_fixtures func r.1 r.2)

/-- Iteration of `Store.freeze` over the registered names: replace each
fixture's `func` by `resolve_function` of it, against the registry as
already updated by the earlier iterations (the source mutates the
`Fixture` objects in place while iterating `session_fixtures.values()`).
-/
def Store.freezeNames (s : Store) : List String → Except FixtureError Store
  | [] => .ok s
  | n :: rest =>
    match s.get? n with
    | none => s.freezeNames rest
    | some fixt =>
      match s.resolve_function fixt.func with
      | .error e => .error e
      | .ok f' => (s.add { fixt with func := f' }).freezeNames rest

/-- `Store.freeze`: resolve the fixtures used by each registered fixture.
-/
def Store.freeze (s : Store) : Except FixtureError Store :=
  s.freezeNames (s.session_fixtures.map Prod.fst)

/-! Helper lemmas about the embedding. -/

theorem pfNormalize_params (f : PyFunc) : (pfNormalize f).params = f.params := by
  unfold pfNormalize wrapAsync
  split <;> rfl

theorem pfNormalize_body (f : PyFunc) : (pfNormalize f).body = f.body := by
  unfold pfNormalize wrapAsync
  split <;> rfl

theorem pfNormalize_name (f : PyFunc) : (pfNormalize f).name = f.name := by
  unfold pfNormalize wrapAsync
  split <;> rfl

theorem dictGet_dictSet_self {α : Type} (d : List (String × α)) (k : String)
    (v : α) : dictGet (dictSet d k v) k = some v := by
  induction d with
  | nil => simp [dictSet, dictGet]
  | cons hd tl ih =>
    obtain ⟨k', v'⟩ := hd
    by_cases h : k' = k <;> simp [dictSet, dictGet, h, ih]

theorem dictGet_dictSet_ne {α : Type} (d : List (String × α)) (k k' : String)
    (v : α) (h : k ≠ k') : dictGet (dictSet d k v) k' = dictGet d k' := by
  induction d with
  | nil => simp [dictSet, dictGet, h]
  | cons hd tl ih =>
    obtain ⟨k₀, v₀⟩ := hd
    by_cases h₀ : k₀ = k
    · subst h₀
      simp [dictSet, dictGet, h]
    · simp [dictSet, dictGet, h₀, ih]

theorem Store.fixture_snd (s : Store) (func : PyFunc) (scope : String)
    (nameArg : Option String) (lazy : Bool) :
    (Store.fixture s func scope nameArg lazy).2 =
      match Fixture.create func (nameArg.getD func.name) scope lazy with
      | .error _ => s
      | .ok fixt => s.add fixt := by
  rcases h : Fixture.create func (nameArg.getD func.name) scope lazy
      with e | fixt
  · simp [Store.fixture, h]
  · rcases h₂ : (s.add fixt).checkForRecursiveFixtures (nameArg.getD func.name)
        func with e₂ | u <;>
      simp [Store.fixture, h, h₂]

theorem Fixture.create_error {f : PyFunc} {n sc : String} {lz : Bool}
    {e : FixtureError} (h : Fixture.create f n sc lz = .error e) :
    e = .declarationError "Lazy fixtures must be session-scoped" := by
  unfold Fixture.create at h
  split at h
  · injection h with h'
    exact h'.symm
  · exact absurd h (by simp)

theorem Fixture.create_ok_fields {f : PyFunc} {n sc : String} {lz : Bool}
    {fx : Fixture} (h : Fixture.create f n sc lz = .ok fx) :
    fx.func = pfNormalize f ∧ fx.name = n ∧ fx.scope = sc ∧ fx.lazy = lz := by
  unfold Fixture.create at h
  split at h
  · exact absurd h (by simp)
  · injection h with h'
    subst h'
    exact ⟨rfl, rfl, rfl, rfl⟩

theorem Store.get?_add_self (s : Store) (fixt : Fixture) :
    (s.add fixt).get? fixt.name = some fixt := by
  simp [Store.add, Store.get?, dictGet_dictSet_self]

theorem Store.checkForRecursiveFixtures_error {s : Store} {n : String}
    {f : PyFunc} {e : FixtureError}
    (h : s.checkForRecursiveFixtures n f = .error e) :
    ∃ b, e = .recursiveFixtureError n b := by
  unfold Store.checkForRecursiveFixtures at h
  split at h
  · injection h with h'
    exact ⟨_, h'.symm⟩
  · exact absurd h (by simp)

/-- A provider body returning `None` without touching the world, used in
concrete instances. -/
def noneBody : List Value → List (String × Value) → Comp :=
  fun _ _ w => (Value.vnone, w)

/-- A sample synchronous Python function with the given name and
parameters. -/
def sampleFunc (nm : String) (ps : List Param) : PyFunc :=
  ⟨nm, ps, false, noneBody⟩

/-- C3: constructing a `Fixture` with `lazy = true` and a scope other than
`"session"` raises `FixtureDeclarationError` at declaration time, while
`lazy = true` with scope `"session"`, or `lazy = false` with any scope,
succeeds (with the provider normalized and the metadata stored). -/
theorem fixture_create_lazy_requires_session_scope (f : PyFunc)
    (n sc : String) (lz : Bool) :
    (lz = true ∧ sc ≠ SCOPE_SESSION →
      Fixture.create f n sc lz =
        .error (.declarationError "Lazy fixtures must be session-scoped")) ∧
    (lz = false ∨ sc = SCOPE_SESSION →
      ∃ fx, Fixture.create f n sc lz = .ok fx ∧ fx.func = pfNormalize f ∧
        fx.name = n ∧ fx.scope = sc ∧ fx.lazy = lz) := by
  constructor
  · rintro ⟨h1, h2⟩
    subst h1
    simp only [Fixture.create, Bool.true_and, bne_iff_ne, ne_eq, h2,
      not_false_eq_true, if_true]
  · intro h
    have hcond : (lz && (sc != SCOPE_SESSION)) = false := by
      rcases h with h | h
      · simp [h]
      · simp [h]
    refine ⟨⟨pfNormalize f, n, sc, lz⟩, ?_, rfl, rfl, rfl, rfl⟩
    simp [Fixture.create, hcond]

/-- Witness for C3 at concrete inputs: a lazy `"app"`-scoped fixture is
rejected and a lazy `"session"`-scoped one is accepted. -/
theorem fixture_create_lazy_requires_session_scope_witness :
    Fixture.create (sampleFunc "f" []) "x" "app" true =
      .error (.declarationError "Lazy fixtures must be session-scoped") ∧
    ∃ fx, Fixture.create (sampleFunc "f" []) "x" "session" true = .ok fx ∧
      fx.func = pfNormalize (sampleFunc "f" []) ∧ fx.name = "x" ∧
      fx.scope = "session" ∧ fx.lazy = true :=
  ⟨(fixture_create_lazy_requires_session_scope (sampleFunc "f" []) "x" "app"
      true).1 ⟨rfl, by decide⟩,
   (fixture_create_lazy_requires_session_scope (sampleFunc "f" []) "x"
      "session" true).2 (Or.inr rfl)⟩

/-- C2: for every starting store, registering a fixture named `b` whose
provider has parameter `a` and then one named `a` whose provider has
parameter `b` raises `RecursiveFixtureError` naming `a` and `b`; and the
check is one level deep: registering the length-3 cycle
`a(b)`, `b(c)`, `c(a)` from an empty store raises no error. -/
theorem recursive_fixture_check_one_level_deep :
    (∀ (s₀ : Store) (kA kB : ParamKind) (ca cb : Bool)
        (bodyA bodyB : List Value → List (String × Value) → Comp),
      (Store.fixture
          (Store.fixture s₀ ⟨"b", [⟨"a", kA⟩], cb, bodyB⟩ "session" none
            false).2
          ⟨"a", [⟨"b", kB⟩], ca, bodyA⟩ "session" none false).1 =
        .error (.recursiveFixtureError "a" "b")) ∧
    (∀ (kA kB kC : ParamKind) (ca cb cc : Bool)
        (bodyA bodyB bodyC : List Value → List (String × Value) → Comp),
      (∃ fx, (Store.fixture Store.init ⟨"a", [⟨"b", kA⟩], ca, bodyA⟩
          "session" none false).1 = .ok fx) ∧
      (∃ fx, (Store.fixture
          (Store.fixture Store.init ⟨"a", [⟨"b", kA⟩], ca, bodyA⟩
            "session" none false).2
          ⟨"b", [⟨"c", kB⟩], cb, bodyB⟩ "session" none false).1 = .ok fx) ∧
      (∃ fx, (Store.fixture
          (Store.fixture
            (Store.fixture Store.init ⟨"a", [⟨"b", kA⟩], ca, bodyA⟩
              "session" none false).2
            ⟨"b", [⟨"c", kB⟩], cb, bodyB⟩ "session" none false).2
          ⟨"c", [⟨"a", kC⟩], cc, bodyC⟩ "session" none false).1 = .ok fx)) := by
  constructor
  · intro s₀ kA kB ca cb bodyA bodyB
    rw [Store.fixture_snd]
    simp [Store.fixture, Fixture.create, SCOPE_SESSION, Store.add,
      Store.checkForRecursiveFixtures, Store.getFixtures, Store.get?,
      pfNormalize_params, dictGet_dictSet_self, dictGet_dictSet_ne,
      List.find?, dictGet]
  · intro kA kB kC ca cb cc bodyA bodyB bodyC
    refine ⟨?_, ?_, ?_⟩ <;>
      simp [Store.fixture, Fixture.create, SCOPE_SESSION, Store.add,
        Store.init, Store.checkForRecursiveFixtures, Store.getFixtures,
        Store.get?, pfNormalize_params, dictGet, dictSet, List.find?]

/-- Store holding the single fixture `b(a)`, obtained by registering the
provider `b` with parameter `a` into an empty store. -/
def storeWithB : Store :=
  (Store.fixture Store.init
    (sampleFunc "b" [⟨"a", ParamKind.positional⟩]) "session" none false).2

/-- C1, counterexample: registering `a(b)` into `storeWithB` raises
`RecursiveFixtureError`, yet afterwards the lookup of `"a"` — absent
before the call — observes the newly registered fixture, so the registry
is not unchanged on this declaration-time error. -/
theorem registration_not_atomic_counterexample :
    storeWithB.get? "a" = none ∧
    (Store.fixture storeWithB
        (sampleFunc "a" [⟨"b", ParamKind.positional⟩]) "session" none
        false).1 = .error (.recursiveFixtureError "a" "b") ∧
    (Store.fixture storeWithB
        (sampleFunc "a" [⟨"b", ParamKind.positional⟩]) "session" none
        false).2.get? "a" =
      some ⟨pfNormalize (sampleFunc "a" [⟨"b", ParamKind.positional⟩]),
        "a", "session", false⟩ :=
  ⟨rfl, rfl, rfl⟩

/-- C1, amended: a `FixtureDeclarationError` raised by `Fixture`
construction (lazy with non-session scope) leaves the registry unchanged,
while a `RecursiveFixtureError` from the cycle check is raised only after
the new fixture was fully inserted: the post-call registry is exactly the
old one with the complete new fixture added, and a lookup of the new
name observes that fully registered fixture (on success the registry is
updated the same way) — a lookup never observes a half-registered
fixture. -/
theorem store_fixture_registration_effects (s : Store) (func : PyFunc)
    (scope : String) (nameArg : Option String) (lazy : Bool) :
    (∀ m, (Store.fixture s func scope nameArg lazy).1 =
        .error (.declarationError m) →
      (Store.fixture s func scope nameArg lazy).2 = s) ∧
    (∀ a b, (Store.fixture s func scope nameArg lazy).1 =
        .error (.recursiveFixtureError a b) →
      ∃ fx, Fixture.create func (nameArg.getD func.name) scope lazy =
          .ok fx ∧
        (Store.fixture s func scope nameArg lazy).2 = s.add fx ∧
        (Store.fixture s func scope nameArg lazy).2.get?
          (nameArg.getD func.name) = some fx) ∧
    (∀ fx, (Store.fixture s func scope nameArg lazy).1 = .ok fx →
      (Store.fixture s func scope nameArg lazy).2 = s.add fx ∧
      (Store.fixture s func scope nameArg lazy).2.get?
        (nameArg.getD func.name) = some fx) := by
  rcases h : Fixture.create func (nameArg.getD func.name) scope lazy
      with e | fixt
  · have he := Fixture.create_error h
    subst he
    refine ⟨fun m _ => ?_, fun a b hr => ?_, fun fx hok => ?_⟩
    · simp [Store.fixture, h]
    · simp [Store.fixture, h] at hr
    · simp [Store.fixture, h] at hok
  · have hname := (Fixture.create_ok_fields h).2.1
    rcases h₂ : (s.add fixt).checkForRecursiveFixtures
        (nameArg.getD func.name) func with e₂ | u
    · obtain ⟨b₀, hb₀⟩ := Store.checkForRecursiveFixtures_error h₂
      subst hb₀
      have hsnd : (Store.fixture s func scope nameArg lazy).2 = s.add fixt :=
        by simp [Store.fixture, h, h₂]
      refine ⟨fun m hm => ?_, fun a b _ => ?_, fun fx hok => ?_⟩
      · simp [Store.fixture, h, h₂] at hm
      · exact ⟨fixt, rfl, hsnd,
          (by rw [hsnd, ← hname]; exact Store.get?_add_self s fixt)⟩
      · simp [Store.fixture, h, h₂] at hok
    · have hsnd : (Store.fixture s func scope nameArg lazy).2 = s.add fixt :=
        by simp [Store.fixture, h, h₂]
      refine ⟨fun m hm => ?_, fun a b hr => ?_, fun fx hok => ?_⟩
      · simp [Store.fixture, h, h₂] at hm
      · simp [Store.fixture, h, h₂] at hr
      · have hfx : fx = fixt := by
          simp [Store.fixture, h, h₂] at hok
          exact hok.symm
        subst hfx
        exact ⟨hsnd,
          (by rw [hsnd, ← hname]; exact Store.get?_add_self s fx)⟩

/-- Witness for C1 at concrete inputs: the recursive-error branch of
`store_fixture_registration_effects` applied to registering `a(b)` into
`storeWithB`. -/
theorem store_fixture_registration_effects_witness :
    ∃ fx, Fixture.create (sampleFunc "a" [⟨"b", ParamKind.positional⟩])
        "a" "session" false = .ok fx ∧
      (Store.fixture storeWithB
        (sampleFunc "a" [⟨"b", ParamKind.positional⟩]) "session" none
        false).2 = storeWithB.add fx ∧
      (Store.fixture storeWithB
        (sampleFunc "a" [⟨"b", ParamKind.positional⟩]) "session" none
        false).2.get? "a" = some fx :=
  (store_fixture_registration_effects storeWithB
    (sampleFunc "a" [⟨"b", ParamKind.positional⟩]) "session" none
    false).2.1 "a" "b" rfl

/-- Whether some parameter of the list names a registered fixture. -/
def hasFixtureParam (s : Store) (ps : List Param) : Bool :=
  ps.any fun p => s.exists? p.name

/-- Recursive rendition of "a fixture-named parameter occurs after a
parameter matching no fixture". -/
def lateFixture (s : Store) : List Param → Bool
  | [] => false
  | p :: rest =>
    if s.exists? p.name then lateFixture s rest else hasFixtureParam s rest

theorem lateFixture_iff_sublist (s : Store) : ∀ ps : List Param,
    lateFixture s ps = true ↔
      ∃ p q, List.Sublist [p, q] ps ∧ s.exists? p.name = false ∧
        s.exists? q.name = true := by
  intro ps
  induction ps with
  | nil =>
    simp [lateFixture]
  | cons p₀ rest ih =>
    by_cases h : s.exists? p₀.name = true
    · rw [lateFixture, if_pos h, ih]
      constructor
      · rintro ⟨p, q, hsub, hp, hq⟩
        exact ⟨p, q, hsub.cons p₀, hp, hq⟩
      · rintro ⟨p, q, hsub, hp, hq⟩
        cases hsub with
        | cons _ htail => exact ⟨p, q, htail, hp, hq⟩
        | cons₂ _ htail => exact absurd h (by rw [hp]; simp)
    · rw [Bool.not_eq_true] at h
      rw [lateFixture, if_neg (by simp [h])]
      constructor
      · intro hany
        obtain ⟨q, hqmem, hq⟩ := List.any_eq_true.mp hany
        exact ⟨p₀, q, (List.singleton_sublist.mpr hqmem).cons₂ p₀, h, hq⟩
      · rintro ⟨p, q, hsub, hp, hq⟩
        cases hsub with
        | cons _ htail =>
          exact List.any_eq_true.mpr
            ⟨q, htail.subset (by simp), hq⟩
        | cons₂ _ htail =>
          exact List.any_eq_true.mpr
            ⟨q, List.singleton_sublist.mp htail, hq⟩

theorem resolveFixturesAux_error_iff (s : Store) : ∀ (ps : List Param)
    (processing : Bool) (aF kF : List (String × Fixture)),
    ((∃ e, s.resolveFixturesAux ps processing aF kF = .error e) ↔
      (if processing then lateFixture s ps else hasFixtureParam s ps) =
        true) ∧
    (∀ e, s.resolveFixturesAux ps processing aF kF = .error e →
      e = orderingError) := by
  intro ps
  induction ps with
  | nil =>
    intro processing aF kF
    constructor
    · simp [Store.resolveFixturesAux, lateFixture, hasFixtureParam]
    · intro e he
      simp [Store.resolveFixturesAux] at he
  | cons p rest ih =>
    intro processing aF kF
    rcases hfix : s.get? p.name with _ | fixt
    · have hex : s.exists? p.name = false := by simp [Store.exists?, hfix]
      have := ih false aF kF
      constructor
      · rw [Store.resolveFixturesAux]
        rw [hfix]
        rw [this.1]
        cases processing <;>
          simp [lateFixture, hasFixtureParam, hex]
      · intro e he
        rw [Store.resolveFixturesAux] at he
        rw [hfix] at he
        exact this.2 e he
    · have hex : s.exists? p.name = true := by simp [Store.exists?, hfix]
      cases processing with
      | false =>
        constructor
        · simp [Store.resolveFixturesAux, hfix, hasFixtureParam, hex]
        · intro e he
          simp [Store.resolveFixturesAux, hfix] at he
          exact he.symm
      | true =>
        by_cases hk : p.kind = ParamKind.keywordOnly
        · have := ih true aF (kF ++ [(p.name, fixt)])
          constructor
          · rw [Store.resolveFixturesAux]
            rw [hfix]
            simp only [hk, Bool.true_eq_false, if_false, if_true, reduceIte]
            rw [this.1]
            simp [lateFixture, hex]
          · intro e he
            rw [Store.resolveFixturesAux] at he
            rw [hfix] at he
            simp only [hk, Bool.true_eq_false, if_false, reduceIte] at he
            exact this.2 e he
        · have := ih true (aF ++ [(p.name, fixt)]) kF
          constructor
          · rw [Store.resolveFixturesAux]
            rw [hfix]
            simp only [hk, Bool.true_eq_false, if_false, reduceIte]
            rw [this.1]
            simp [lateFixture, hex]
          · intro e he
            rw [Store.resolveFixturesAux] at he
            rw [hfix] at he
            simp only [hk, Bool.true_eq_false, if_false, reduceIte] at he
            exact this.2 e he

/-- C4: binding a function through `resolve_function` raises
`FixtureDeclarationError` exactly when some fixture-named parameter
occurs after a parameter matching no fixture (a two-element sublist
non-fixture-then-fixture of the parameter list); otherwise — in
particular when non-fixture parameters only follow the fixture
parameters — resolution succeeds. -/
theorem resolve_function_fixture_param_ordering (s : Store) (f : PyFunc) :
    (s.resolve_function f = .error orderingError ↔
      ∃ p q, List.Sublist [p, q] f.params ∧ s.exists? p.name = false ∧
        s.exists? q.name = true) ∧
    ((∃ g, s.resolve_function f = .ok g) ↔
      ¬∃ p q, List.Sublist [p, q] f.params ∧ s.exists? p.name = false ∧
        s.exists? q.name = true) := by
  have hps : (pfNormalize f).params = f.params := pfNormalize_params f
  have hchar := resolveFixturesAux_error_iff s (pfNormalize f).params true [] []
  have hlate : lateFixture s (pfNormalize f).params = true ↔
      ∃ p q, List.Sublist [p, q] f.params ∧ s.exists? p.name = false ∧
        s.exists? q.name = true := by
    rw [hps]
    exact lateFixture_iff_sublist s f.params
  rcases haux : s.resolveFixtures (pfNormalize f) with e | r
  · have he : e = orderingError := hchar.2 e haux
    subst he
    have hlate' : lateFixture s (pfNormalize f).params = true := by
      simpa using hchar.1.mp ⟨_, haux⟩
    have hres : s.resolve_function f = .error orderingError := by
      simp [Store.resolve_function, haux]
    refine ⟨⟨fun _ => hlate.mp hlate', fun _ => hres⟩, ?_, ?_⟩
    · rintro ⟨g, hg⟩
      rw [hres] at hg
      cases hg
    · intro hn
      exact absurd (hlate.mp hlate') hn
  · have hnol : ¬lateFixture s (pfNormalize f).params = true := by
      intro hl
      obtain ⟨e, he⟩ := hchar.1.mpr (by simpa using hl)
      have he' : s.resolveFixtures (pfNormalize f) = .error e := he
      rw [haux] at he'
      cases he'
    have hres : ∃ g, s.resolve_function f = .ok g := by
      simp only [Store.resolve_function, haux]
      split
      · exact ⟨_, rfl⟩
      · exact ⟨_, rfl⟩
    refine ⟨⟨fun h => ?_, fun hp => ?_⟩, fun _ => fun hp => hnol (hlate.mpr hp),
      fun _ => hres⟩
    · obtain ⟨g, hg⟩ := hres
      rw [hg] at h
      cases h
    · exact absurd (hlate.mpr hp) hnol

theorem resolveFixturesAux_all_none (s : Store) (ps : List Param)
    (h : ∀ p ∈ ps, s.get? p.name = none) : ∀ (b : Bool)
    (aF kF : List (String × Fixture)),
    s.resolveFixturesAux ps b aF kF = .ok (aF, kF) := by
  induction ps with
  | nil =>
    intro b aF kF
    rfl
  | cons p rest ih =>
    intro b aF kF
    rw [Store.resolveFixturesAux]
    rw [h p (List.mem_cons_self p rest)]
    exact ih (fun q hq => h q (List.mem_cons_of_mem p hq)) false aF kF

/-- C6: when no parameter of `f` matches a registered fixture,
`resolve_function` returns `f` itself, merely normalized to a coroutine
function, with no wrapper: the result has the same body (hence the same
outcome, including any failure encoding, on every argument list and
world), the same parameters and the same name as `f`. -/
theorem resolve_function_noop_without_fixture_params (s : Store)
    (f : PyFunc) (h : s.getFixtures f = []) :
    s.resolve_function f = .ok (pfNormalize f) ∧
    (pfNormalize f).body = f.body ∧ (pfNormalize f).params = f.params ∧
    (pfNormalize f).name = f.name := by
  have hall : ∀ p ∈ f.params, s.get? p.name = none := by
    intro p hp
    rcases hg : s.get? p.name with _ | fx
    · rfl
    · exfalso
      have : (p.name, fx) ∈ s.getFixtures f := by
        simp only [Store.getFixtures, List.mem_filterMap]
        exact ⟨p, hp, by rw [hg]; rfl⟩
      rw [h] at this
      cases this
  have hall' : ∀ p ∈ (pfNormalize f).params, s.get? p.name = none := by
    rw [pfNormalize_params]
    exact hall
  have haux : s.resolveFixtures (pfNormalize f) = .ok ([], []) :=
    resolveFixturesAux_all_none s (pfNormalize f).params hall' true [] []
  refine ⟨?_, pfNormalize_body f, pfNormalize_params f, pfNormalize_name f⟩
  simp [Store.resolve_function, haux]

/-- Witness for C6 at concrete inputs: a function whose only parameter
`arg` matches no fixture of `storeWithB` is returned unwrapped. -/
theorem resolve_function_noop_without_fixture_params_witness :
    storeWithB.resolve_function
        (sampleFunc "double" [⟨"arg", ParamKind.positional⟩]) =
      .ok (pfNormalize
        (sampleFunc "double" [⟨"arg", ParamKind.positional⟩])) ∧
    (pfNormalize (sampleFunc "double" [⟨"arg", ParamKind.positional⟩])).body =
      (sampleFunc "double" [⟨"arg", ParamKind.positional⟩]).body ∧
    (pfNormalize
        (sampleFunc "double" [⟨"arg", ParamKind.positional⟩])).params =
      (sampleFunc "double" [⟨"arg", ParamKind.positional⟩]).params ∧
    (pfNormalize (sampleFunc "double" [⟨"arg", ParamKind.positional⟩])).name =
      (sampleFunc "double" [⟨"arg", ParamKind.positional⟩]).name :=
  resolve_function_noop_without_fixture_params storeWithB
    (sampleFunc "double" [⟨"arg", ParamKind.positional⟩]) rfl

/-- Provider of the `pitch` fixture: returns the string `"C#"`. -/
def pitchFunc : PyFunc :=
  ⟨"pitch", [], false, fun _ _ w => (Value.str "C#", w)⟩

/-- Store holding the single fixture `pitch`. -/
def storePitch : Store :=
  (Store.fixture Store.init pitchFunc "session" none false).2

/-- Body of `play(pitch, duration)`: returns the tuple
`(pitch, duration)`, binding `duration` positionally when a second
positional argument is present and from the keyword arguments otherwise.
-/
def playBody : List Value → List (String × Value) → Comp :=
  fun args kwargs w =>
    (Value.pair (args.getD 0 Value.vnone)
      (args.getD 1 ((dictGet kwargs "duration").getD Value.vnone)), w)

/-- The function `play(pitch, duration)`. -/
def playFunc : PyFunc :=
  ⟨"play", [⟨"pitch", ParamKind.positional⟩,
    ⟨"duration", ParamKind.positional⟩], false, playBody⟩

/-- C5: every invocation of a wrapped function calls the original
function with the injected positional fixture values first, then the
caller's positional arguments, then the injected keyword fixture values,
then the caller's keyword arguments; concretely, with fixture
`pitch() -> "C#"`, the resolution of `play(pitch, duration)` maps both
`play(1)` and `play(duration=1)` to `("C#", 1)`. -/
theorem with_fixtures_call_order :
    (∀ (s : Store) (f : PyFunc) (aF kF : List (String × Fixture))
        (args : List Value) (kwargs : List (String × Value)) (w : World),
      s.resolveFixtures (pfNormalize f) = .ok (aF, kF) →
      (aF.isEmpty && kF.isEmpty) = false →
      ∃ g, s.resolve_function f = .ok g ∧
        g.body args kwargs w =
          f.body ((injectArgs aF w).1 ++ args)
            ((injectKwargs kF (injectArgs aF w).2).1 ++ kwargs)
            (injectKwargs kF (injectArgs aF w).2).2) ∧
    (∃ g, storePitch.resolve_function playFunc = .ok g ∧ ∀ w : World,
      g.body [Value.int 1] [] w =
        (Value.pair (Value.str "C#") (Value.int 1), w) ∧
      g.body [] [("duration", Value.int 1)] w =
        (Value.pair (Value.str "C#") (Value.int 1), w)) := by
  constructor
  · intro s f aF kF args kwargs w hres hne
    refine ⟨with_fixtures (pfNormalize f) aF kF, ?_, ?_⟩
    · simp [Store.resolve_function, hres, hne]
    · show (pfNormalize f).body ((injectArgs aF w).1 ++ args)
        ((injectKwargs kF (injectArgs aF w).2).1 ++ kwargs)
        (injectKwargs kF (injectArgs aF w).2).2 = _
      rw [pfNormalize_body]
  · exact ⟨_, rfl, fun w => ⟨rfl, rfl⟩⟩

/-- Witness for C5: the general ordering equation applied to the
`pitch`/`play` instance at `play(1)` with the empty world. -/
theorem with_fixtures_call_order_witness :
    ∃ g, storePitch.resolve_function playFunc = .ok g ∧
      g.body [Value.int 1] [] [] =
        playFunc.body
          ((injectArgs [("pitch",
            ⟨pfNormalize pitchFunc, "pitch", "session", false⟩)] []).1 ++
            [Value.int 1])
          ((injectKwargs []
            (injectArgs [("pitch",
              ⟨pfNormalize pitchFunc, "pitch", "session", false⟩)] []).2).1 ++
            [])
          (injectKwargs []
            (injectArgs [("pitch",
              ⟨pfNormalize pitchFunc, "pitch", "session", false⟩)] []).2).2 :=
  with_fixtures_call_order.1 storePitch playFunc
    [("pitch", ⟨pfNormalize pitchFunc, "pitch", "session", false⟩)] []
    [Value.int 1] [] [] rfl rfl

/-- Store holding the single lazy fixture `pitch`. -/
def storeLazyPitch : Store :=
  (Store.fixture Store.init pitchFunc "session" none true).2

/-- C8: inside a wrapped function, the argument injected for a lazy
fixture is the unawaited suspendable handle produced by invoking the
fixture (`Value.handle fixt.call`: the consumer awaits it itself), while
for a non-lazy fixture it is the already-awaited resolved value — for a
positional fixture parameter and for a keyword-only one alike. -/
theorem lazy_fixture_injects_unawaited_handle (s : Store) (n : String)
    (fixt : Fixture) (f : PyFunc) (k : ParamKind) (args : List Value)
    (kwargs : List (String × Value)) (w : World)
    (hget : s.get? n = some fixt) (hparams : f.params = [⟨n, k⟩]) :
    ∃ g, s.resolve_function f = .ok g ∧
      (k = ParamKind.positional →
        g.body args kwargs w =
          if fixt.lazy then
            f.body (Value.handle fixt.call :: args) kwargs w
          else
            f.body ((fixt.call w).1 :: args) kwargs (fixt.call w).2) ∧
      (k = ParamKind.keywordOnly →
        g.body args kwargs w =
          if fixt.lazy then
            f.body args ((n, Value.handle fixt.call) :: kwargs) w
          else
            f.body args ((n, (fixt.call w).1) :: kwargs) (fixt.call w).2) := by
  have hps : (pfNormalize f).params = [⟨n, k⟩] := by
    rw [pfNormalize_params, hparams]
  cases k with
  | positional =>
    have hres : s.resolveFixtures (pfNormalize f) = .ok ([(n, fixt)], []) := by
      show s.resolveFixturesAux (pfNormalize f).params true [] [] = _
      rw [hps]
      rw [Store.resolveFixturesAux]
      rw [hget]
      simp [Store.resolveFixturesAux]
    refine ⟨with_fixtures (pfNormalize f) [(n, fixt)] [], ?_, ?_, ?_⟩
    · simp [Store.resolve_function, hres]
    · intro _
      show (pfNormalize f).body ((injectArgs [(n, fixt)] w).1 ++ args)
        (_ ++ kwargs) _ = _
      rw [pfNormalize_body]
      by_cases hl : fixt.lazy
      · simp [injectArgs, injectKwargs, injectValue, hl]
      · simp [injectArgs, injectKwargs, injectValue, hl]
    · intro hk
      cases hk
  | keywordOnly =>
    have hres : s.resolveFixtures (pfNormalize f) = .ok ([], [(n, fixt)]) := by
      show s.resolveFixturesAux (pfNormalize f).params true [] [] = _
      rw [hps]
      rw [Store.resolveFixturesAux]
      rw [hget]
      simp [Store.resolveFixturesAux]
    refine ⟨with_fixtures (pfNormalize f) [] [(n, fixt)], ?_, ?_, ?_⟩
    · simp [Store.resolve_function, hres]
    · intro hk
      cases hk
    · intro _
      show (pfNormalize f).body (_ ++ args)
        ((injectKwargs [(n, fixt)] (injectArgs [] w).2).1 ++ kwargs) _ = _
      rw [pfNormalize_body]
      by_cases hl : fixt.lazy
      · simp [injectArgs, injectKwargs, injectValue, hl]
      · simp [injectArgs, injectKwargs, injectValue, hl]

/-- Witness for C8: the lazy `pitch` fixture, consumed positionally by a
one-parameter function, is injected as an unawaited handle. -/
theorem lazy_fixture_injects_unawaited_handle_witness :
    ∃ g, storeLazyPitch.resolve_function
        (sampleFunc "play" [⟨"pitch", ParamKind.positional⟩]) = .ok g ∧
      (ParamKind.positional = ParamKind.positional →
        g.body [] [] [] =
          if (⟨pfNormalize pitchFunc, "pitch", "session", true⟩ :
              Fixture).lazy then
            (sampleFunc "play" [⟨"pitch", ParamKind.positional⟩]).body
              [Value.handle (Fixture.call
                ⟨pfNormalize pitchFunc, "pitch", "session", true⟩)] [] []
          else
            (sampleFunc "play" [⟨"pitch", ParamKind.positional⟩]).body
              [(Fixture.call ⟨pfNormalize pitchFunc, "pitch", "session",
                true⟩ []).1] []
              (Fixture.call ⟨pfNormalize pitchFunc, "pitch", "session",
                true⟩ []).2) ∧
      (ParamKind.positional = ParamKind.keywordOnly →
        g.body [] [] [] =
          if (⟨pfNormalize pitchFunc, "pitch", "session", true⟩ :
              Fixture).lazy then
            (sampleFunc "play" [⟨"pitch", ParamKind.positional⟩]).body []
              [("pitch", Value.handle (Fixture.call
                ⟨pfNormalize pitchFunc, "pitch", "session", true⟩))] []
          else
            (sampleFunc "play" [⟨"pitch", ParamKind.positional⟩]).body []
              [("pitch", (Fixture.call ⟨pfNormalize pitchFunc, "pitch",
                "session", true⟩ []).1)]
              (Fixture.call ⟨pfNormalize pitchFunc, "pitch", "session",
                true⟩ []).2) :=
  lazy_fixture_injects_unawaited_handle storeLazyPitch "pitch"
    ⟨pfNormalize pitchFunc, "pitch", "session", true⟩
    (sampleFunc "play" [⟨"pitch", ParamKind.positional⟩])
    ParamKind.positional [] [] [] rfl rfl

/-- Provider of the `items` fixture: returns a fresh empty list and logs
the invocation of the computation on the trace. -/
def itemsFunc : PyFunc :=
  ⟨"items", [], false, fun _ _ w => (Value.list [], w ++ ["items"])⟩

/-- Store holding the single fixture `items`. -/
def storeItems : Store :=
  (Store.fixture Store.init itemsFunc "session" none false).2

/-- `add(value, items)` with the fixture parameter second, as written in
the claim (`items.append(value); return items`). -/
def addFuncValueFirst : PyFunc :=
  ⟨"add", [⟨"value", ParamKind.positional⟩, ⟨"items", ParamKind.positional⟩],
    false,
    fun args _ w =>
      (match args.getD 1 Value.vnone with
       | Value.list l => Value.list (l ++ [args.getD 0 Value.vnone])
       | v => v, w)⟩

/-- `add(items, value)` with the fixture parameter first, as in the
repository's own test (`items.append(value); return items`). -/
def addFuncItemsFirst : PyFunc :=
  ⟨"add", [⟨"items", ParamKind.positional⟩, ⟨"value", ParamKind.positional⟩],
    false,
    fun args _ w =>
      (match args.getD 0 Value.vnone with
       | Value.list l => Value.list (l ++ [args.getD 1 Value.vnone])
       | v => v, w)⟩

/-- C7, counterexample: the claim's example function `add(value, items)`
declares the fixture parameter `items` after the non-fixture parameter
`value`, so `resolve_function` raises `FixtureDeclarationError` and no
resolved callable exists: calling it can never yield `[1]` then `[2]`. -/
theorem session_fixture_example_rejected_counterexample :
    storeItems.resolve_function addFuncValueFirst = .error orderingError ∧
    ¬∃ g, storeItems.resolve_function addFuncValueFirst = .ok g := by
  refine ⟨rfl, ?_⟩
  rintro ⟨g, hg⟩
  rw [show storeItems.resolve_function addFuncValueFirst =
    .error orderingError from rfl] at hg
  cases hg

/-- C7, amended: session-scope fixture values are never cached — for
every non-lazy fixture consumed positionally, each invocation of the
wrapped function reruns the fixture's computation on the current world
(also on the world left by a previous call); with the fixture parameter
declared first (`add(items, value)`, as the ordering contract requires),
calling the resolved function with 1 then 2 yields `[1]` then `[2]` —
never `[1, 2]` — and the trace records two runs of the computation. -/
theorem session_fixtures_not_memoized :
    (∀ (s : Store) (n : String) (fixt : Fixture) (f : PyFunc)
        (a₁ a₂ : List Value) (k₁ k₂ : List (String × Value)) (w : World),
      s.get? n = some fixt → fixt.lazy = false →
      f.params = [⟨n, ParamKind.positional⟩] →
      ∃ g, s.resolve_function f = .ok g ∧
        g.body a₁ k₁ w =
          f.body ((fixt.call w).1 :: a₁) k₁ (fixt.call w).2 ∧
        g.body a₂ k₂ (g.body a₁ k₁ w).2 =
          f.body ((fixt.call (g.body a₁ k₁ w).2).1 :: a₂) k₂
            (fixt.call (g.body a₁ k₁ w).2).2) ∧
    (∃ g, storeItems.resolve_function addFuncItemsFirst = .ok g ∧
      (g.body [Value.int 1] [] []).1 = Value.list [Value.int 1] ∧
      (g.body [Value.int 2] [] (g.body [Value.int 1] [] []).2).1 =
        Value.list [Value.int 2] ∧
      (g.body [Value.int 2] [] (g.body [Value.int 1] [] []).2).2 =
        ["items", "items"] ∧
      (g.body [Value.int 2] [] (g.body [Value.int 1] [] []).2).1 ≠
        Value.list [Value.int 1, Value.int 2]) := by
  constructor
  · intro s n fixt f a₁ a₂ k₁ k₂ w hget hlazy hparams
    have hps : (pfNormalize f).params = [⟨n, ParamKind.positional⟩] := by
      rw [pfNormalize_params, hparams]
    have hres : s.resolveFixtures (pfNormalize f) = .ok ([(n, fixt)], []) := by
      show s.resolveFixturesAux (pfNormalize f).params true [] [] = _
      rw [hps]
      rw [Store.resolveFixturesAux]
      rw [hget]
      simp [Store.resolveFixturesAux]
    refine ⟨with_fixtures (pfNormalize f) [(n, fixt)] [], ?_, ?_, ?_⟩
    · simp [Store.resolve_function, hres]
    · show (pfNormalize f).body ((injectArgs [(n, fixt)] w).1 ++ a₁)
        (_ ++ k₁) _ = _
      rw [pfNormalize_body]
      simp [injectArgs, injectKwargs, injectValue, hlazy]
    · show (pfNormalize f).body
        ((injectArgs [(n, fixt)]
          ((with_fixtures (pfNormalize f) [(n, fixt)] []).body a₁ k₁ w).2).1
          ++ a₂) (_ ++ k₂) _ = _
      rw [pfNormalize_body]
      simp [injectArgs, injectKwargs, injectValue, hlazy]
  · refine ⟨_, rfl, rfl, rfl, rfl, ?_⟩
    show Value.list [Value.int 2] ≠ Value.list [Value.int 1, Value.int 2]
    simp

/-- Witness for C7: the general recomputation equations applied to the
`items` fixture and a one-parameter consumer at calls with 1 then 2 from
the empty trace. -/
theorem session_fixtures_not_memoized_witness :
    ∃ g, storeItems.resolve_function
        (sampleFunc "consume" [⟨"items", ParamKind.positional⟩]) = .ok g ∧
      g.body [Value.int 1] [] [] =
        (sampleFunc "consume" [⟨"items", ParamKind.positional⟩]).body
          ((Fixture.call ⟨pfNormalize itemsFunc, "items", "session",
            false⟩ []).1 :: [Value.int 1]) []
          (Fixture.call ⟨pfNormalize itemsFunc, "items", "session",
            false⟩ []).2 ∧
      g.body [Value.int 2] [] (g.body [Value.int 1] [] []).2 =
        (sampleFunc "consume" [⟨"items", ParamKind.positional⟩]).body
          ((Fixture.call ⟨pfNormalize itemsFunc, "items", "session",
            false⟩ (g.body [Value.int 1] [] []).2).1 :: [Value.int 2]) []
          (Fixture.call ⟨pfNormalize itemsFunc, "items", "session",
            false⟩ (g.body [Value.int 1] [] []).2).2 :=
  session_fixtures_not_memoized.1 storeItems "items"
    ⟨pfNormalize itemsFunc, "items", "session", false⟩
    (sampleFunc "consume" [⟨"items", ParamKind.positional⟩])
    [Value.int 1] [Value.int 2] [] [] [] (by rfl) (by rfl) (by rfl)

/-- C9: fixture-in-fixture composition is order-independent. With a leaf
provider `a` and a provider `b` whose parameter names `a`, registering in
either order and then freezing replaces the computation of `b` by its
resolved form: resolving a consumer with parameter `b` yields the value
computed by the body of `b` applied to the value of `a` (with the world
threaded through the computation of `a` and then of `b`). -/
theorem freeze_composes_fixtures_either_order
    (bodyA bodyB : List Value → List (String × Value) → Comp)
    (ca cb : Bool) (w : World) :
    (∃ sF, (Store.fixture
        (Store.fixture Store.init ⟨"a", [], ca, bodyA⟩ "session" none
          false).2
        ⟨"b", [⟨"a", ParamKind.positional⟩], cb, bodyB⟩ "session" none
        false).2.freeze = .ok sF ∧
      ∃ g, sF.resolve_function
          ⟨"consume", [⟨"b", ParamKind.positional⟩], false,
            fun args _ w' => (args.getD 0 Value.vnone, w')⟩ = .ok g ∧
        g.body [] [] w =
          bodyB [(bodyA [] [] w).1] [] (bodyA [] [] w).2) ∧
    (∃ sF, (Store.fixture
        (Store.fixture Store.init
          ⟨"b", [⟨"a", ParamKind.positional⟩], cb, bodyB⟩ "session" none
          false).2
        ⟨"a", [], ca, bodyA⟩ "session" none false).2.freeze = .ok sF ∧
      ∃ g, sF.resolve_function
          ⟨"consume", [⟨"b", ParamKind.positional⟩], false,
            fun args _ w' => (args.getD 0 Value.vnone, w')⟩ = .ok g ∧
        g.body [] [] w =
          bodyB [(bodyA [] [] w).1] [] (bodyA [] [] w).2) := by
  cases ca <;> cases cb <;>
    exact ⟨⟨_, rfl, _, rfl, rfl⟩, ⟨_, rfl, _, rfl, rfl⟩⟩

theorem dictSet_map_fst {α : Type} (d : List (String × α)) (k : String)
    (v : α) :
    (dictSet d k v).map Prod.fst =
      if k ∈ d.map Prod.fst then d.map Prod.fst
      else d.map Prod.fst ++ [k] := by
  induction d with
  | nil => simp [dictSet]
  | cons hd tl ih =>
    obtain ⟨k₀, v₀⟩ := hd
    by_cases h : k₀ = k
    · subst h
      simp [dictSet]
    · have h' : ¬k = k₀ := fun hh => h hh.symm
      by_cases hm : k ∈ tl.map Prod.fst
      · simp [dictSet, h, ih, hm, h']
      · simp [dictSet, h, ih, hm, h']

theorem nodup_keys_dictSet {α : Type} (d : List (String × α)) (k : String)
    (v : α) (h : (d.map Prod.fst).Nodup) :
    ((dictSet d k v).map Prod.fst).Nodup := by
  rw [dictSet_map_fst]
  split
  · exact h
  · next hnm =>
    refine h.append (List.nodup_singleton k) ?_
    intro x hx hxk
    rw [List.mem_singleton] at hxk
    subst hxk
    exact hnm hx

theorem dictGet_mem_keys {α : Type} {d : List (String × α)} {k : String}
    {v : α} (h : dictGet d k = some v) : k ∈ d.map Prod.fst := by
  induction d with
  | nil => cases h
  | cons hd tl ih =>
    obtain ⟨k₀, v₀⟩ := hd
    by_cases h₀ : k₀ = k
    · subst h₀
      simp
    · rw [dictGet, if_neg h₀] at h
      simp [ih h]

/-- C10: registering a second fixture under an already-registered name
raises no error and silently replaces the previous fixture: afterwards
the registry holds exactly one fixture under that name, lookups and the
bindings computed by `resolve_function` for later consumers use the
newest fixture, and every other name maps to the same fixture as before.
(The replacing provider is taken without parameters, so that the
recursion check trivially passes and the name collision is the only
thing at stake.) -/
theorem reregistration_replaces_silently (s₀ : Store) (f₁ f₂ : PyFunc)
    (n sc₁ sc₂ : String)
    (hnd : (s₀.session_fixtures.map Prod.fst).Nodup)
    (hf₂ : f₂.params = []) :
    ∃ fx, (Store.fixture (Store.fixture s₀ f₁ sc₁ (some n) false).2 f₂ sc₂
        (some n) false).1 = .ok fx ∧
      fx.func = pfNormalize f₂ ∧ fx.name = n ∧ fx.scope = sc₂ ∧
      (Store.fixture (Store.fixture s₀ f₁ sc₁ (some n) false).2 f₂ sc₂
        (some n) false).2.get? n = some fx ∧
      (((Store.fixture (Store.fixture s₀ f₁ sc₁ (some n) false).2 f₂ sc₂
        (some n) false).2.session_fixtures.map Prod.fst).count n = 1) ∧
      (∀ m, m ≠ n →
        (Store.fixture (Store.fixture s₀ f₁ sc₁ (some n) false).2 f₂ sc₂
          (some n) false).2.get? m =
        (Store.fixture s₀ f₁ sc₁ (some n) false).2.get? m) ∧
      (∀ c : PyFunc, c.params = [⟨n, ParamKind.positional⟩] →
        (Store.fixture (Store.fixture s₀ f₁ sc₁ (some n) false).2 f₂ sc₂
          (some n) false).2.resolveFixtures (pfNormalize c) =
          .ok ([(n, fx)], [])) := by
  have hs₁ : (Store.fixture s₀ f₁ sc₁ (some n) false).2 =
      s₀.add ⟨pfNormalize f₁, n, sc₁, false⟩ := by
    rw [Store.fixture_snd]
    rfl
  have hcheck : ∀ s : Store, s.checkForRecursiveFixtures n f₂ = .ok () := by
    intro s
    simp [Store.checkForRecursiveFixtures, Store.getFixtures, hf₂]
  have hreg : Store.fixture (Store.fixture s₀ f₁ sc₁ (some n) false).2 f₂
      sc₂ (some n) false =
      (.ok ⟨pfNormalize f₂, n, sc₂, false⟩,
        ((Store.fixture s₀ f₁ sc₁ (some n) false).2).add
          ⟨pfNormalize f₂, n, sc₂, false⟩) := by
    simp [Store.fixture, Fixture.create, hcheck]
  refine ⟨⟨pfNormalize f₂, n, sc₂, false⟩, by rw [hreg], rfl, rfl, rfl,
    ?_, ?_, ?_, ?_⟩
  · rw [hreg]
    exact Store.get?_add_self _ _
  · rw [hreg]
    have hmem : n ∈ List.map Prod.fst
        (Store.fixture s₀ f₁ sc₁ (some n) false).2.session_fixtures := by
      rw [hs₁]
      exact dictGet_mem_keys (Store.get?_add_self s₀
        ⟨pfNormalize f₁, n, sc₁, false⟩)
    have hnd₁ : (List.map Prod.fst
        (Store.fixture s₀ f₁ sc₁ (some n) false).2.session_fixtures).Nodup
        := by
      rw [hs₁]
      exact nodup_keys_dictSet _ _ _ hnd
    show ((dictSet _ _ _).map Prod.fst).count n = 1
    rw [dictSet_map_fst]
    rw [if_pos hmem]
    exact List.count_eq_one_of_mem hnd₁ hmem
  · intro m hm
    rw [hreg]
    exact dictGet_dictSet_ne _ _ _ _ (fun hh => hm hh.symm)
  · intro c hc
    rw [hreg]
    show Store.resolveFixturesAux _ (pfNormalize c).params true [] [] = _
    rw [pfNormalize_params, hc]
    rw [Store.resolveFixturesAux]
    rw [show (((Store.fixture s₀ f₁ sc₁ (some n) false).2).add
        ⟨pfNormalize f₂, n, sc₂, false⟩).get? n =
      some ⟨pfNormalize f₂, n, sc₂, false⟩ from Store.get?_add_self _ _]
    simp [Store.resolveFixturesAux]

/-- Witness for C10: re-registering the name `"x"` over an empty store,
first with a parameterless provider and then with `pitchFunc`. -/
theorem reregistration_replaces_silently_witness :
    ∃ fx, (Store.fixture (Store.fixture Store.init (sampleFunc "x" [])
        "session" (some "x") false).2 pitchFunc "session" (some "x")
        false).1 = .ok fx ∧
      fx.func = pfNormalize pitchFunc ∧ fx.name = "x" ∧
      fx.scope = "session" ∧
      (Store.fixture (Store.fixture Store.init (sampleFunc "x" [])
        "session" (some "x") false).2 pitchFunc "session" (some "x")
        false).2.get? "x" = some fx ∧
      (((Store.fixture (Store.fixture Store.init (sampleFunc "x" [])
        "session" (some "x") false).2 pitchFunc "session" (some "x")
        false).2.session_fixtures.map Prod.fst).count "x" = 1) ∧
      (∀ m, m ≠ "x" →
        (Store.fixture (Store.fixture Store.init (sampleFunc "x" [])
          "session" (some "x") false).2 pitchFunc "session" (some "x")
          false).2.get? m =
        (Store.fixture Store.init (sampleFunc "x" []) "session" (some "x")
          false).2.get? m) ∧
      (∀ c : PyFunc, c.params = [⟨"x", ParamKind.positional⟩] →
        (Store.fixture (Store.fixture Store.init (sampleFunc "x" [])
          "session" (some "x") false).2 pitchFunc "session" (some "x")
          false).2.resolveFixtures (pfNormalize c) =
          .ok ([("x", fx)], [])) :=
  reregistration_replaces_silently Store.init (sampleFunc "x" [])
    pitchFunc "x" "session" "session" (by simp [Store.init]) rfl

end Bocadillo
